import Mathlib

/-!
Verification of the asset-cataloging pipeline in `scripts/catalog_templates.py`.

The script rasterizes PDF pages to PNG files, enumerates image files in the
root directory and its immediate subdirectories, deduplicates the resulting
descriptor list by `filename`, optionally enriches each descriptor through an
external vision model, and renders a structured catalog plus a narrative
`prompt_template.txt`.

The embedding below is shallow: file-system contents (directory listings, PDF
page data, file sizes, image decode results) are inputs to pure Lean
functions; exceptions become `Except`; the external JSON parser (`json.loads`)
and the network reply are parameters.  Python strings are modelled through
their character lists, with helper functions mirroring the Python string
methods actually used by the script (`strip`, `lower`, `upper`, `split`,
`startswith`, `lstrip`, slicing).
-/

/-- Python `str.strip()` restricted to ASCII whitespace: drop leading and
trailing whitespace characters. -/
def pyStrip (s : String) : String :=
  String.mk (((s.data.dropWhile Char.isWhitespace).reverse.dropWhile Char.isWhitespace).reverse)

/-- Python `str.lower()` (ASCII case folding). -/
def pyLower (s : String) : String :=
  String.mk (s.data.map Char.toLower)

/-- Python `str.upper()` (ASCII case folding). -/
def pyUpper (s : String) : String :=
  String.mk (s.data.map Char.toUpper)

/-- Python `str.startswith(p)`. -/
def pyStartsWith (s p : String) : Bool :=
  p.data.isPrefixOf s.data

/-- Python `str.endswith(p)`. -/
def pyEndsWith (s p : String) : Bool :=
  p.data.isSuffixOf s.data

/-- Python `s[n:]` for a non-negative index. -/
def pySliceFrom (s : String) (n : Nat) : String :=
  String.mk (s.data.drop n)

/-- Python `str.lstrip('.')`: drop every leading dot. -/
def pyLstripDot (s : String) : String :=
  String.mk (s.data.dropWhile (fun c => c = '.'))

/-- Python truthiness of an optional string (`None` and `""` are falsy). -/
def pyTruthyStr : Option String → Bool
  | none => false
  | some s => !s.data.isEmpty

/-- Python truthiness of an optional number (`None` and `0` are falsy). -/
def pyTruthyNat : Option Nat → Bool
  | none => false
  | some n => n ≠ 0

/-- Python `round(bytes / 1024)` for an integral byte count: the quotient is
exact in binary floating point (division by a power of two), so the result is
the nearest integer with ties going to the even quotient. -/
def roundKB (bytes : Nat) : Nat :=
  let q := bytes / 1024
  let r := bytes % 1024
  if r < 512 then q
  else if 512 < r then q + 1
  else if q % 2 = 0 then q else q + 1

/-- Index of the last dot in a character list, if any. -/
def lastDotIdx (cs : List Char) : Option Nat :=
  ((List.range cs.length).filter (fun i => cs.getD i ' ' = '.')).getLast?

/-- `pathlib.PurePath(name).suffix`: the substring from the last dot on,
empty when the last dot is absent, leading, or trailing. -/
def pathSuffix (name : String) : String :=
  match lastDotIdx name.data with
  | none => ""
  | some i =>
    if 0 < i ∧ i + 1 < name.data.length then String.mk (name.data.drop i) else ""

/-- `pathlib.PurePath(name).stem`: the name with its suffix removed. -/
def pathStem (name : String) : String :=
  match lastDotIdx name.data with
  | none => name
  | some i =>
    if 0 < i ∧ i + 1 < name.data.length then String.mk (name.data.take i) else name

/-- One catalog asset descriptor (a Python dict in the script).  `width` and
`height` are `none` when the script stores `None`; the four enrichment fields
are `none` when the key is absent from the dict. -/
structure Asset where
  filename : String
  source : String
  description : String
  width : Option Nat
  height : Option Nat
  sizeKB : Nat
  mimeType : String
  recommendedUse : Option String := none
  layoutHints : Option String := none
  colorPalette : Option String := none
  copyGuidance : Option String := none
deriving Repr, DecidableEq

/-- Result of `json.loads` on an enrichment reply, when it yields a truthy
JSON object: the five fields the script reads, each `none` when absent. -/
structure Reply where
  summary : Option String := none
  recommendedUse : Option String := none
  layoutHints : Option String := none
  colorPalette : Option String := none
  copyGuidance : Option String := none
deriving Repr, DecidableEq

/-- Fuel-driven worker for `splitFence`; the fuel bounds the input length so
the recursion is structural and kernel-reducible. -/
def splitFenceGo : Nat → List Char → List (List Char)
  | 0, cs => [cs]
  | _ + 1, [] => [[]]
  | fuel + 1, c :: rest =>
    if ['`', '`', '`'].isPrefixOf (c :: rest) then
      [] :: splitFenceGo fuel (rest.drop 2)
    else
      match splitFenceGo fuel rest with
      | [] => [[c]]
      | p :: ps => (c :: p) :: ps

/-- Python `candidate.split("```")` specialised to the three-backtick fence
used by `extract_json` (left-to-right, non-overlapping occurrences). -/
def splitFence (cs : List Char) : List (List Char) :=
  splitFenceGo cs.length cs

/-- The fencing-strip step of `extract_json`: trim the text; when it starts
with a three-backtick fence, take the first part of the fence split that is
non-empty after stripping, and remove a leading case-insensitive `json`
language tag (four characters) followed by a re-strip; when every part strips
to empty the trimmed text itself is kept. -/
def stripFenceText (text : String) : String :=
  let candidate := pyStrip text
  if pyStartsWith candidate "```" then
    match ((splitFence candidate.data).map (fun p => pyStrip (String.mk p))).find?
        (fun s => !s.data.isEmpty) with
    | some stripped =>
      if pyStartsWith (pyLower stripped) "json" then pyStrip (pySliceFrom stripped 4)
      else stripped
    | none => candidate
  else candidate

/-- `extract_json`: strip code fencing, then hand the candidate to the JSON
parser (`loads` models `json.loads`, returning `none` where Python would
raise `JSONDecodeError` or yield a falsy or non-object value). -/
def extract_json (loads : String → Option Reply) (text : String) : Option Reply :=
  loads (stripFenceText text)

/-- One part of a Gemini candidate content; the script reads only the
optional `text` entry. -/
structure RespPart where
  text : Option String := none
deriving Repr, DecidableEq

/-- One Gemini candidate; a missing `content` or `parts` entry behaves like
an empty part list, which is how the script reads it. -/
structure Candidate where
  parts : List RespPart := []
deriving Repr, DecidableEq

/-- The decoded HTTP response envelope; a missing or falsy `candidates`
entry behaves like the empty list, which is how the script reads it. -/
structure Payload where
  candidates : List Candidate := []
deriving Repr, DecidableEq

/-- `[part.get("text", "") for part in parts if part.get("text")]`: the
truthy text chunks of a candidate. -/
def textChunks (cand : Candidate) : List String :=
  cand.parts.filterMap (fun p => p.text.bind (fun s => if s.data.isEmpty then none else some s))

/-- The field-update block at the end of `describe_asset_with_gemini`:
overwrite `description` only when `summary` is truthy, and set each of the
four enrichment keys only when the reply carries a truthy value for it. -/
def applyReply (r : Reply) (a : Asset) : Asset :=
  let a1 :=
    match r.summary with
    | some s => if s.data.isEmpty then a else { a with description := s }
    | none => a
  let a2 :=
    match r.recommendedUse with
    | some s => if s.data.isEmpty then a1 else { a1 with recommendedUse := some s }
    | none => a1
  let a3 :=
    match r.layoutHints with
    | some s => if s.data.isEmpty then a2 else { a2 with layoutHints := some s }
    | none => a2
  let a4 :=
    match r.colorPalette with
    | some s => if s.data.isEmpty then a3 else { a3 with colorPalette := some s }
    | none => a3
  match r.copyGuidance with
  | some s => if s.data.isEmpty then a4 else { a4 with copyGuidance := some s }
  | none => a4

/-- `describe_asset_with_gemini`, as a function of the externally observed
effects: `assetExists` is the `asset_path.exists()` check, `resp` is the
decoded HTTP response (`none` when the request raised), and `loads` models
`json.loads` inside `extract_json`.  Returns the descriptor after the
in-place mutation the script performs. -/
def describe_asset_with_gemini (loads : String → Option Reply) (assetExists : Bool)
    (resp : Option Payload) (a : Asset) : Asset :=
  if !assetExists then a
  else
    match resp with
    | none => a
    | some payload =>
      match payload.candidates with
      | [] => a
      | cand :: _ =>
        if (textChunks cand).isEmpty then a
        else
          match extract_json loads ((textChunks cand).foldl (· ++ ·) "") with
          | none => a
          | some r => applyReply r a

/-- One rendered PDF page: the pixmap dimensions produced at 300 DPI and the
byte size of the PNG file the script writes for it. -/
structure Page where
  width : Nat
  height : Nat
  pngBytes : Nat
deriving Repr, DecidableEq

/-- One PDF discovered by `d.glob("*.pdf")`; `pages` is `none` when
`fitz.open` (or rasterization) raises on it. -/
structure Pdf where
  name : String
  pages : Option (List Page)
deriving Repr, DecidableEq

/-- One directory entry seen by `folder.iterdir()` during image enumeration:
its name, whether it is a regular file, its byte size, and the result of
`PIL.Image.open(...).size` (`none` when decoding raises). -/
structure ImgFile where
  name : String
  isFile : Bool
  bytes : Nat
  dims : Option (Nat × Nat)
deriving Repr, DecidableEq

/-- One scanned directory: its path relative to the catalog root (`""` for
the root itself), the `*.pdf` glob results in enumeration order, and the
`iterdir()` results in enumeration order. -/
structure Dir where
  relPath : String
  pdfs : List Pdf
  files : List ImgFile
deriving Repr, DecidableEq

/-- The template root and its immediate subdirectories, in the enumeration
order `root.iterdir()` yields them. -/
structure DirTree where
  rootDir : Dir
  children : List Dir
deriving Repr, DecidableEq

/-- Join a root-relative directory path with an entry name the way
`str(path.relative_to(root))` renders it. -/
def relJoin (dirRel name : String) : String :=
  if dirRel.data.isEmpty then name else dirRel ++ "/" ++ name

/-- The `SUPPORTED_IMG` extension set. -/
def SUPPORTED_IMG : List String := [".png", ".jpg", ".jpeg", ".webp"]

/-- Descriptor built by `catalog_images` for one accepted file entry. -/
def mkImageAsset (dirRel : String) (f : ImgFile) : Asset :=
  { filename := relJoin dirRel f.name
    source := f.name
    description :=
      match f.dims with
      | some (w, h) =>
        if w ≠ 0 ∧ h ≠ 0 then
          pyLstripDot (pyUpper (pathSuffix f.name)) ++ " " ++ toString w ++ "x"
            ++ toString h ++ "px"
        else pyLstripDot (pyUpper (pathSuffix f.name)) ++ " image"
      | none => pyLstripDot (pyUpper (pathSuffix f.name)) ++ " image"
    width := f.dims.map Prod.fst
    height := f.dims.map Prod.snd
    sizeKB := roundKB f.bytes
    mimeType := "image/" ++ pyLstripDot (pyLower (pathSuffix f.name)) }

/-- `catalog_images`: one descriptor per regular file with a supported
extension, in enumeration order; everything else is skipped silently. -/
def catalog_images (d : Dir) : List Asset :=
  d.files.filterMap (fun f =>
    if !f.isFile then none
    else if !(SUPPORTED_IMG.contains (pyLower (pathSuffix f.name))) then none
    else some (mkImageAsset d.relPath f))

/-- Descriptor built by `export_pdf` for the page with zero-based index
`i`: a PNG named `<stem>_p<i>.png` in `outDirRel`, a 1-indexed `source`,
and a description embedding the rendered pixmap dimensions. -/
def mkPdfPageAsset (pdfName outDirRel : String) (i : Nat) (pg : Page) : Asset :=
  { filename := relJoin outDirRel (pathStem pdfName ++ "_p" ++ toString i ++ ".png")
    source := pdfName ++ "#page=" ++ toString (i + 1)
    description := "PNG " ++ toString pg.width ++ "x" ++ toString pg.height
      ++ "px exported from " ++ pdfName ++ " page " ++ toString (i + 1)
    width := some pg.width
    height := some pg.height
    sizeKB := roundKB pg.pngBytes
    mimeType := "image/png" }

/-- Assets generated by the page loop of `export_pdf`, starting at page
index `i` (zero-based). -/
def exportPageAssets (pdfName outDirRel : String) : Nat → List Page → List Asset
  | _, [] => []
  | i, pg :: rest =>
    mkPdfPageAsset pdfName outDirRel i pg :: exportPageAssets pdfName outDirRel (i + 1) rest

/-- `export_pdf`: `fitz.open` failure raises out of the function (modelled
as `Except.error`); otherwise one descriptor per page in document order. -/
def export_pdf (pdf : Pdf) (outDirRel : String) : Except String (List Asset) :=
  match pdf.pages with
  | none => Except.error ("cannot open document: " ++ pdf.name)
  | some pages => Except.ok (exportPageAssets pdf.name outDirRel 0 pages)

/-- Sequential effectful map over a list in the `Except` monad, mirroring a
Python loop from which an uncaught exception propagates at the first
failing element. -/
def exceptMapM (f : α → Except ε β) : List α → Except ε (List β)
  | [] => Except.ok []
  | a :: rest =>
    match f a with
    | Except.error e => Except.error e
    | Except.ok b =>
      match exceptMapM f rest with
      | Except.error e => Except.error e
      | Except.ok bs => Except.ok (b :: bs)

/-- The per-directory body of the main walk: export every `*.pdf` into the
sibling subdirectory named after the PDF stem, then enumerate the plain
images of the directory. -/
def processDir (d : Dir) : Except String (List Asset) :=
  match exceptMapM (fun p => export_pdf p (relJoin d.relPath (pathStem p.name))) d.pdfs with
  | Except.error e => Except.error e
  | Except.ok exported => Except.ok (exported.flatten ++ catalog_images d)

/-- `dirs = [root] + [p for p in root.iterdir() if p.is_dir()]`. -/
def dirsOf (t : DirTree) : List Dir :=
  t.rootDir :: t.children

/-- The raw (pre-dedup) asset list accumulated by the main walk. -/
def collectAssets (t : DirTree) : Except String (List Asset) :=
  match exceptMapM processDir (dirsOf t) with
  | Except.error e => Except.error e
  | Except.ok ls => Except.ok ls.flatten

/-- The dedup loop of `main`: `seen` is the set of filenames already kept. -/
def dedupGo (seen : List String) : List Asset → List Asset
  | [] => []
  | a :: rest =>
    if a.filename ∈ seen then dedupGo seen rest
    else a :: dedupGo (a.filename :: seen) rest

/-- Duplicate removal by `filename`, first occurrence kept in place. -/
def dedupByFilename (l : List Asset) : List Asset :=
  dedupGo [] l

/-- Python `a or b` for optional strings (`None` and `""` are falsy). -/
def pyOr (a b : Option String) : Option String :=
  match a with
  | some s => if s.data.isEmpty then b else some s
  | none => b

/-- `os.environ[k] = v`, the environment modelled as a lookup function. -/
def envSet (env : String → Option String) (k v : String) : String → Option String :=
  fun q => if q = k then some v else env q

/-- One iteration of the `.env` parsing loop in `ensure_api_key`. -/
def applyEnvLine (env : String → Option String) (raw : String) : String → Option String :=
  if raw.data.isEmpty then env
  else if pyStartsWith (pyStrip raw) "#" then env
  else if !(raw.data.contains '=') then env
  else
    let k := String.mk (raw.data.takeWhile (fun c => c ≠ '='))
    let v := String.mk ((raw.data.dropWhile (fun c => c ≠ '=')).drop 1)
    if (k = "GEMINI_API_KEY" ∨ k = "API_KEY") ∧ !(pyStrip v).data.isEmpty then
      envSet env k (pyStrip v)
    else env

/-- `ensure_api_key`: try the process environment first; only when neither
variable is truthy, read the `.env` file (`dotenv = none` when the file does
not exist) and merge matching entries into the environment, then retry.
Returns the resolved key (exactly as Python returns it, possibly an empty
string) together with the possibly-updated environment. -/
def ensure_api_key (env : String → Option String) (dotenv : Option (List String)) :
    Option String × (String → Option String) :=
  let key := pyOr (env "GEMINI_API_KEY") (env "API_KEY")
  if pyTruthyStr key then (key, env)
  else
    let env2 :=
      match dotenv with
      | none => env
      | some lines => lines.foldl applyEnvLine env
    (pyOr (env2 "GEMINI_API_KEY") (env2 "API_KEY"), env2)

/-- The dimensions clause of a narrative line, appended only when both
dimensions are truthy (present and non-zero). -/
def dimClause (w h : Option Nat) : String :=
  if pyTruthyNat w ∧ pyTruthyNat h then
    ", " ++ toString (w.getD 0) ++ "x" ++ toString (h.getD 0) ++ "px"
  else ""

/-- The size clause of a narrative line, appended only when `sizeKB` is
truthy (non-zero). -/
def sizeClause (k : Nat) : String :=
  if k ≠ 0 then ", ~" ++ toString k ++ "KB" else ""

/-- An enrichment clause of a narrative line, appended only when the field
is truthy (present and non-empty). -/
def optClause (label : String) (v : Option String) : String :=
  match v with
  | some s => if s.data.isEmpty then "" else label ++ s
  | none => ""

/-- One narrative line of `prompt_template.txt`, built exactly as the
rendering loop of `main` builds it. -/
def renderLine (a : Asset) : String :=
  "- " ++ a.filename ++ " (source: " ++ a.source
    ++ dimClause a.width a.height
    ++ sizeClause a.sizeKB
    ++ ") :: " ++ a.description
    ++ optClause " | Recommended use: " a.recommendedUse
    ++ optClause " | Layout: " a.layoutHints
    ++ optClause " | Colors: " a.colorPalette
    ++ optClause " | Copy: " a.copyGuidance

/-- The fixed header of `prompt_template.txt`. -/
def headerLines (rootPath brand : String) : List String :=
  [ "Template Root: " ++ rootPath
  , "Brand: " ++ brand
  , ""
  , "Usage guidance:"
  , "- Template/background assets = base layer. Do NOT replace or ignore them."
  , "- Logo assets must be used as provided (top corner, padding)."
  , "- Use user copy verbatim; no translation/rewrites."
  , "- Use relative placement descriptions; avoid numeric coordinates."
  , "- Return plain text (no Markdown/JSON) when drafting prompts."
  , ""
  , "Assets:" ]

/-- All lines of `prompt_template.txt`: the fixed header followed by one
line per asset of the final catalog, in catalog order. -/
def promptLines (rootPath brand : String) (assets : List Asset) : List String :=
  headerLines rootPath brand ++ assets.map renderLine

/-- The structured catalog the script prints to stdout. -/
structure Catalog where
  brand : String
  root : String
  assets : List Asset
deriving Repr, DecidableEq

/-- The per-asset external effects of the enrichment phase, keyed by the
asset `filename` the script passes around. -/
structure EnrichEnv where
  loads : String → Option Reply
  assetExistsFor : String → Bool
  responseFor : String → Option Payload

/-- One enrichment call of the `main` loop. -/
def enrichAsset (w : EnrichEnv) (a : Asset) : Asset :=
  describe_asset_with_gemini w.loads (w.assetExistsFor a.filename) (w.responseFor a.filename) a

/-- Everything a successful run produces: the stdout catalog, the lines of
`prompt_template.txt`, and the run-level credential warning (on stderr)
when enrichment was skipped. -/
structure RunResult where
  catalog : Catalog
  promptText : List String
  credWarning : Option String
deriving Repr, DecidableEq

/-- `main` after argument parsing: walk the tree, dedup, resolve the
credential, enrich (or skip with one warning), then render both outputs.
An extraction error propagates and neither output is produced. -/
def runMain (env : String → Option String) (dotenv : Option (List String)) (w : EnrichEnv)
    (rootPath brand : String) (t : DirTree) : Except String RunResult :=
  match collectAssets t with
  | Except.error e => Except.error e
  | Except.ok raw =>
    let uniq := dedupByFilename raw
    let key := (ensure_api_key env dotenv).1
    let enriched := if pyTruthyStr key then uniq.map (enrichAsset w) else uniq
    let warn :=
      if pyTruthyStr key then none
      else some "[warn] GEMINI_API_KEY not found; skipping asset summaries."
    Except.ok
      { catalog := { brand := brand, root := rootPath, assets := enriched }
        promptText := promptLines rootPath brand enriched
        credWarning := warn }

/-- The first PDF of the walk, in processing order, that fails to open. -/
def firstBadPdf (t : DirTree) : Option String :=
  ((((dirsOf t).map Dir.pdfs).flatten).find? (fun p => p.pages.isNone)).map Pdf.name

/-- The first PDF of one directory that fails to open. -/
def firstBadIn (d : Dir) : Option String :=
  (d.pdfs.find? (fun p => p.pages.isNone)).map Pdf.name

/-- The assets `export_pdf` contributes for one PDF of directory `d` when
the PDF opens (its page list read through `Option.getD`). -/
def okExportAssets (d : Dir) (p : Pdf) : List Asset :=
  exportPageAssets p.name (relJoin d.relPath (pathStem p.name)) 0 (p.pages.getD [])

/-- The assets one directory contributes on a fully successful walk: the
PDF exports in glob order followed by the plain-image enumeration. -/
def okDirAssets (d : Dir) : List Asset :=
  (d.pdfs.map (okExportAssets d)).flatten ++ catalog_images d

/-- The deduplicated (pre-enrichment) asset list of a run. -/
def buildAssets (t : DirTree) : Except String (List Asset) :=
  match collectAssets t with
  | Except.error e => Except.error e
  | Except.ok raw => Except.ok (dedupByFilename raw)

/-- Fixture: an asset descriptor used as a concrete witness input. -/
def axFirst : Asset :=
  { filename := "dup.png", source := "dup.png", description := "PNG 10x10px"
    width := some 10, height := some 10, sizeKB := 1, mimeType := "image/png" }

/-- Fixture: a later duplicate of `axFirst` (same filename, other data). -/
def axLater : Asset :=
  { filename := "dup.png", source := "flyer.pdf#page=1", description := "rediscovered"
    width := some 10, height := some 10, sizeKB := 3, mimeType := "image/png" }

/-- Fixture: an asset with a distinct filename. -/
def axOther : Asset :=
  { filename := "other.png", source := "other.png", description := "PNG 5x5px"
    width := some 5, height := some 5, sizeKB := 2, mimeType := "image/png" }

/-- Fixture: a reply carrying a truthy summary and recommended use, a
present-but-empty color palette, and no other fields. -/
def replyFix : Reply :=
  { summary := some "Clean hero layout", recommendedUse := some "Title slides"
    colorPalette := some "" }

/-- Fixture: a JSON parser that recognises exactly the string `REPLY`. -/
def loadsFix : String → Option Reply :=
  fun s => if s = "REPLY" then some replyFix else none

/-- Fixture: a response payload whose single candidate carries one truthy
text part. -/
def payloadFix : Payload :=
  { candidates := [{ parts := [{ text := some "REPLY" }] }] }

/-- Fixture: a one-page readable PDF. -/
def flyerPdf : Pdf :=
  { name := "flyer.pdf", pages := some [{ width := 2550, height := 3300, pngBytes := 500000 }] }

/-- Fixture: a PDF on which `fitz.open` raises. -/
def brokenPdf : Pdf :=
  { name := "broken.pdf", pages := none }

/-- Fixture: a decodable 64 by 64 logo image of 10240 bytes. -/
def logoImg : ImgFile :=
  { name := "logo.png", isFile := true, bytes := 10240, dims := some (64, 64) }

/-- Fixture: an image file whose header does not decode. -/
def corruptImg : ImgFile :=
  { name := "corrupt.jpg", isFile := true, bytes := 700, dims := none }

/-- Fixture: a tiny image file of exactly 512 bytes. -/
def tinyImg : ImgFile :=
  { name := "tiny.png", isFile := true, bytes := 512, dims := some (8, 8) }

/-- Fixture: a directory tree with one PDF and one image at the root and
one image in a child directory. -/
def treeFix : DirTree :=
  { rootDir := { relPath := "", pdfs := [flyerPdf], files := [logoImg] }
    children := [{ relPath := "sub", pdfs := [], files := [corruptImg] }] }

/-- Fixture: the same tree with a broken PDF in the child directory. -/
def treeBadFix : DirTree :=
  { rootDir := { relPath := "", pdfs := [flyerPdf], files := [logoImg] }
    children := [{ relPath := "sub", pdfs := [brokenPdf], files := [corruptImg] }] }

/-- Fixture: an enrichment world in which every request fails. -/
def worldFix : EnrichEnv :=
  { loads := fun _ => none, assetExistsFor := fun _ => false, responseFor := fun _ => none }

/-- Fixture: an environment holding no credential at all. -/
def emptyEnv : String → Option String :=
  fun _ => none

/-- Nothing `dedupGo` keeps has a filename already in `seen`. -/
theorem dedupGo_not_mem_seen {seen : List String} {l : List Asset} {a : Asset}
    (h : a ∈ dedupGo seen l) : a.filename ∉ seen := by
  induction l generalizing seen with
  | nil => simp [dedupGo] at h
  | cons b rest ih =>
    by_cases hb : b.filename ∈ seen
    · rw [dedupGo, if_pos hb] at h
      exact ih h
    · rw [dedupGo, if_neg hb] at h
      rcases List.mem_cons.mp h with rfl | h2
      · exact hb
      · intro hmem
        exact ih h2 (List.mem_cons_of_mem _ hmem)

/-- The kept descriptors have pairwise distinct filenames. -/
theorem dedupGo_pairwise (l : List Asset) (seen : List String) :
    (dedupGo seen l).Pairwise (fun x y => x.filename ≠ y.filename) := by
  induction l generalizing seen with
  | nil => simp [dedupGo]
  | cons b rest ih =>
    by_cases hb : b.filename ∈ seen
    · rw [dedupGo, if_pos hb]
      exact ih seen
    · rw [dedupGo, if_neg hb]
      refine List.Pairwise.cons ?_ (ih _)
      intro y hy hEq
      exact dedupGo_not_mem_seen hy (by rw [← hEq]; exact List.mem_cons_self _ _)

/-- The kept descriptors form a sublist of the input (original order and
positions preserved). -/
theorem dedupGo_sublist (l : List Asset) (seen : List String) :
    List.Sublist (dedupGo seen l) l := by
  induction l generalizing seen with
  | nil => simp [dedupGo]
  | cons b rest ih =>
    by_cases hb : b.filename ∈ seen
    · rw [dedupGo, if_pos hb]
      exact (ih seen).cons _
    · rw [dedupGo, if_neg hb]
      exact (ih _).cons₂ _

/-- Every kept descriptor is the first input element with its filename. -/
theorem dedupGo_first {seen : List String} {l : List Asset} {a : Asset}
    (h : a ∈ dedupGo seen l) :
    l.find? (fun b => b.filename == a.filename) = some a := by
  induction l generalizing seen with
  | nil => simp [dedupGo] at h
  | cons b rest ih =>
    by_cases hb : b.filename ∈ seen
    · rw [dedupGo, if_pos hb] at h
      have hne : (b.filename == a.filename) = false := by
        have ha := dedupGo_not_mem_seen h
        simp only [beq_eq_false_iff_ne, ne_eq]
        intro hEq
        rw [hEq] at hb
        exact ha hb
      simp only [List.find?, hne]
      exact ih h
    · rw [dedupGo, if_neg hb] at h
      rcases List.mem_cons.mp h with rfl | h2
      · simp [List.find?]
      · have ha := dedupGo_not_mem_seen h2
        have hne : (b.filename == a.filename) = false := by
          simp only [beq_eq_false_iff_ne, ne_eq]
          intro hEq
          exact ha (by rw [← hEq]; exact List.mem_cons_self _ _)
        simp only [List.find?, hne]
        exact ih h2

/-- Every input filename either was already seen or survives in the kept
list. -/
theorem dedupGo_cover {seen : List String} {l : List Asset} {a : Asset}
    (h : a ∈ l) :
    a.filename ∈ seen ∨ ∃ b ∈ dedupGo seen l, b.filename = a.filename := by
  induction l generalizing seen with
  | nil => cases h
  | cons c rest ih =>
    by_cases hc : c.filename ∈ seen
    · rw [dedupGo, if_pos hc]
      rcases List.mem_cons.mp h with rfl | h2
      · exact Or.inl hc
      · exact ih h2
    · rw [dedupGo, if_neg hc]
      rcases List.mem_cons.mp h with rfl | h2
      · exact Or.inr ⟨_, List.mem_cons_self _ _, rfl⟩
      · rcases @ih (c.filename :: seen) h2 with hmem | ⟨b, hb, hbf⟩
        · rcases List.mem_cons.mp hmem with hEq | hmem2
          · exact Or.inr ⟨_, List.mem_cons_self _ _, hEq.symm⟩
          · exact Or.inl hmem2
        · exact Or.inr ⟨b, List.mem_cons_of_mem _ hb, hbf⟩

/-- C1.  Catalog deduplication: the dedup loop keeps descriptors in their
original positions (sublist), every kept descriptor is the earliest input
descriptor with its filename, every input filename is still represented,
and no two descriptors of the result share a filename. -/
theorem C1_dedup_earliest_wins_unique (l : List Asset) :
    (dedupByFilename l).Pairwise (fun x y => x.filename ≠ y.filename)
    ∧ List.Sublist (dedupByFilename l) l
    ∧ (∀ a ∈ dedupByFilename l, l.find? (fun b => b.filename == a.filename) = some a)
    ∧ (∀ a ∈ l, ∃ b ∈ dedupByFilename l, b.filename = a.filename) := by
  refine ⟨dedupGo_pairwise l [], dedupGo_sublist l [], ?_, ?_⟩
  · intro a ha
    exact dedupGo_first ha
  · intro a ha
    rcases @dedupGo_cover [] l a ha with hmem | hres
    · cases hmem
    · exact hres

/-- C1 witness: on a concrete list with a duplicate filename, the first
occurrence is the one kept and the duplicate is merged away. -/
theorem C1_dedup_earliest_wins_unique_witness :
    List.find? (fun b => b.filename == axLater.filename) [axFirst, axLater, axOther]
      = some axFirst
    ∧ ∃ b ∈ dedupByFilename [axFirst, axLater, axOther], b.filename = axLater.filename := by
  have h := C1_dedup_earliest_wins_unique [axFirst, axLater, axOther]
  refine ⟨?_, h.2.2.2 axLater (by decide)⟩
  have hkept : axFirst ∈ dedupByFilename [axFirst, axLater, axOther] := by decide
  have hfind := h.2.2.1 axFirst hkept
  have hfn : axLater.filename = axFirst.filename := by decide
  rw [hfn]
  exact hfind

/-- The sequential field updates of `applyReply` amount to one simultaneous
conditional update of the five writable fields. -/
theorem applyReply_eq (r : Reply) (a : Asset) :
    applyReply r a =
      { a with
        description :=
          match r.summary with
          | some s => if s.data.isEmpty then a.description else s
          | none => a.description
        recommendedUse :=
          match r.recommendedUse with
          | some s => if s.data.isEmpty then a.recommendedUse else some s
          | none => a.recommendedUse
        layoutHints :=
          match r.layoutHints with
          | some s => if s.data.isEmpty then a.layoutHints else some s
          | none => a.layoutHints
        colorPalette :=
          match r.colorPalette with
          | some s => if s.data.isEmpty then a.colorPalette else some s
          | none => a.colorPalette
        copyGuidance :=
          match r.copyGuidance with
          | some s => if s.data.isEmpty then a.copyGuidance else some s
          | none => a.copyGuidance } := by
  rcases r with ⟨s1, s2, s3, s4, s5⟩
  cases s1 <;> cases s2 <;> cases s3 <;> cases s4 <;> cases s5 <;>
    simp only [applyReply] <;>
    first
      | rfl
      | (split_ifs <;> rfl)

/-- `applyReply` never touches `filename`. -/
theorem applyReply_filename (r : Reply) (a : Asset) :
    (applyReply r a).filename = a.filename := by
  rw [applyReply_eq]

/-- `applyReply` never touches `source`. -/
theorem applyReply_source (r : Reply) (a : Asset) :
    (applyReply r a).source = a.source := by
  rw [applyReply_eq]

/-- `applyReply` never touches `width`. -/
theorem applyReply_width (r : Reply) (a : Asset) :
    (applyReply r a).width = a.width := by
  rw [applyReply_eq]

/-- `applyReply` never touches `height`. -/
theorem applyReply_height (r : Reply) (a : Asset) :
    (applyReply r a).height = a.height := by
  rw [applyReply_eq]

/-- `applyReply` never touches `sizeKB`. -/
theorem applyReply_sizeKB (r : Reply) (a : Asset) :
    (applyReply r a).sizeKB = a.sizeKB := by
  rw [applyReply_eq]

/-- `applyReply` never touches `mimeType`. -/
theorem applyReply_mimeType (r : Reply) (a : Asset) :
    (applyReply r a).mimeType = a.mimeType := by
  rw [applyReply_eq]

/-- `description` is overwritten exactly when the reply summary is truthy. -/
theorem applyReply_description (r : Reply) (a : Asset) :
    (applyReply r a).description =
      if pyTruthyStr r.summary then r.summary.getD a.description else a.description := by
  rw [applyReply_eq]
  rcases hs : r.summary with _ | s
  · simp [pyTruthyStr]
  · cases hempty : s.data.isEmpty <;> simp [pyTruthyStr, hempty]

/-- `recommendedUse` is set exactly when the reply field is truthy. -/
theorem applyReply_recommendedUse (r : Reply) (a : Asset) :
    (applyReply r a).recommendedUse =
      if pyTruthyStr r.recommendedUse then r.recommendedUse else a.recommendedUse := by
  rw [applyReply_eq]
  rcases hs : r.recommendedUse with _ | s
  · simp [pyTruthyStr]
  · cases hempty : s.data.isEmpty <;> simp [pyTruthyStr, hempty]

/-- `layoutHints` is set exactly when the reply field is truthy. -/
theorem applyReply_layoutHints (r : Reply) (a : Asset) :
    (applyReply r a).layoutHints =
      if pyTruthyStr r.layoutHints then r.layoutHints else a.layoutHints := by
  rw [applyReply_eq]
  rcases hs : r.layoutHints with _ | s
  · simp [pyTruthyStr]
  · cases hempty : s.data.isEmpty <;> simp [pyTruthyStr, hempty]

/-- `colorPalette` is set exactly when the reply field is truthy. -/
theorem applyReply_colorPalette (r : Reply) (a : Asset) :
    (applyReply r a).colorPalette =
      if pyTruthyStr r.colorPalette then r.colorPalette else a.colorPalette := by
  rw [applyReply_eq]
  rcases hs : r.colorPalette with _ | s
  · simp [pyTruthyStr]
  · cases hempty : s.data.isEmpty <;> simp [pyTruthyStr, hempty]

/-- `copyGuidance` is set exactly when the reply field is truthy. -/
theorem applyReply_copyGuidance (r : Reply) (a : Asset) :
    (applyReply r a).copyGuidance =
      if pyTruthyStr r.copyGuidance then r.copyGuidance else a.copyGuidance := by
  rw [applyReply_eq]
  rcases hs : r.copyGuidance with _ | s
  · simp [pyTruthyStr]
  · cases hempty : s.data.isEmpty <;> simp [pyTruthyStr, hempty]

/-- C2.  Non-destructive enrichment: every skipped or failed stage (missing
asset file, failed request, empty candidate list, no truthy text parts,
unparseable reply) leaves the descriptor untouched; on a successful parse,
`description` changes only for a truthy `summary`, the four enrichment
fields are set only for truthy reply fields, and every other descriptor
field is unchanged. -/
theorem C2_enrichment_non_destructive (loads : String → Option Reply) (ex : Bool)
    (resp : Option Payload) (a : Asset) :
    (ex = false → describe_asset_with_gemini loads ex resp a = a)
    ∧ (resp = none → describe_asset_with_gemini loads ex resp a = a)
    ∧ (∀ payload, resp = some payload → payload.candidates = [] →
        describe_asset_with_gemini loads ex resp a = a)
    ∧ (∀ payload cand rest, resp = some payload → payload.candidates = cand :: rest →
        textChunks cand = [] → describe_asset_with_gemini loads ex resp a = a)
    ∧ (∀ payload cand rest, resp = some payload → payload.candidates = cand :: rest →
        extract_json loads ((textChunks cand).foldl (· ++ ·) "") = none →
        describe_asset_with_gemini loads ex resp a = a)
    ∧ (∀ payload cand rest r, ex = true → resp = some payload →
        payload.candidates = cand :: rest → (textChunks cand).isEmpty = false →
        extract_json loads ((textChunks cand).foldl (· ++ ·) "") = some r →
        describe_asset_with_gemini loads ex resp a = applyReply r a
        ∧ (applyReply r a).filename = a.filename
        ∧ (applyReply r a).source = a.source
        ∧ (applyReply r a).width = a.width
        ∧ (applyReply r a).height = a.height
        ∧ (applyReply r a).sizeKB = a.sizeKB
        ∧ (applyReply r a).mimeType = a.mimeType
        ∧ (applyReply r a).description
            = (if pyTruthyStr r.summary then r.summary.getD a.description else a.description)
        ∧ (applyReply r a).recommendedUse
            = (if pyTruthyStr r.recommendedUse then r.recommendedUse else a.recommendedUse)
        ∧ (applyReply r a).layoutHints
            = (if pyTruthyStr r.layoutHints then r.layoutHints else a.layoutHints)
        ∧ (applyReply r a).colorPalette
            = (if pyTruthyStr r.colorPalette then r.colorPalette else a.colorPalette)
        ∧ (applyReply r a).copyGuidance
            = (if pyTruthyStr r.copyGuidance then r.copyGuidance else a.copyGuidance)) := by
  refine ⟨?_, ?_, ?_, ?_, ?_, ?_⟩
  · intro hex
    subst hex
    simp [describe_asset_with_gemini]
  · intro hresp
    subst hresp
    cases ex <;> simp [describe_asset_with_gemini]
  · intro payload hresp hcand
    subst hresp
    cases ex <;> simp [describe_asset_with_gemini, hcand]
  · intro payload cand rest hresp hcand hchunks
    subst hresp
    cases ex <;> simp [describe_asset_with_gemini, hcand, hchunks]
  · intro payload cand rest hresp hcand hext
    subst hresp
    cases ex <;> simp [describe_asset_with_gemini, hcand, hext]
  · intro payload cand rest r hex hresp hcand hchunks hext
    subst hex
    subst hresp
    refine ⟨?_, applyReply_filename r a, applyReply_source r a, applyReply_width r a,
      applyReply_height r a, applyReply_sizeKB r a, applyReply_mimeType r a,
      applyReply_description r a, applyReply_recommendedUse r a, applyReply_layoutHints r a,
      applyReply_colorPalette r a, applyReply_copyGuidance r a⟩
    simp [describe_asset_with_gemini, hcand, hchunks, hext]

/-- C2 witness: on a concrete reply with a truthy summary and recommended
use and an empty colorPalette, enrichment applies exactly those fields; with
the asset file absent, the descriptor is returned unchanged. -/
theorem C2_enrichment_non_destructive_witness :
    describe_asset_with_gemini loadsFix true (some payloadFix) axOther = applyReply replyFix axOther
    ∧ describe_asset_with_gemini loadsFix false (some payloadFix) axOther = axOther := by
  have h := C2_enrichment_non_destructive loadsFix true (some payloadFix) axOther
  have hfail := C2_enrichment_non_destructive loadsFix false (some payloadFix) axOther
  refine ⟨?_, hfail.1 rfl⟩
  have hsucc := h.2.2.2.2.2 payloadFix ⟨[⟨some "REPLY"⟩]⟩
    [] replyFix rfl rfl (by decide) (by decide) (by decide)
  exact hsucc.1

/-- The PDF loop of one directory: the first unopenable PDF raises with its
name; when every PDF opens, the loop returns the per-PDF exports in glob
order. -/
theorem exportLoop_spec (rel : String) (ps : List Pdf) :
    (∀ nm, ((ps.find? (fun p => p.pages.isNone)).map Pdf.name) = some nm →
        exceptMapM (fun p => export_pdf p (relJoin rel (pathStem p.name))) ps
          = Except.error ("cannot open document: " ++ nm))
    ∧ (ps.find? (fun p => p.pages.isNone) = none →
        exceptMapM (fun p => export_pdf p (relJoin rel (pathStem p.name))) ps
          = Except.ok (ps.map (fun p =>
              exportPageAssets p.name (relJoin rel (pathStem p.name)) 0 (p.pages.getD [])))) := by
  induction ps with
  | nil => exact ⟨fun nm h => by simp at h, fun _ => rfl⟩
  | cons p0 rest ih =>
    constructor
    · intro nm h
      cases hpg : p0.pages with
      | none =>
        rw [List.find?_cons_of_pos _ (by simp [hpg])] at h
        rw [Option.map_some'] at h
        have hnm := Option.some.inj h
        have hstep : export_pdf p0 (relJoin rel (pathStem p0.name))
            = Except.error ("cannot open document: " ++ p0.name) := by
          rw [export_pdf, hpg]
        simp only [exceptMapM, hstep]
        rw [hnm]
      | some pages =>
        rw [List.find?_cons_of_neg _ (by simp [hpg])] at h
        have hstep : export_pdf p0 (relJoin rel (pathStem p0.name))
            = Except.ok (exportPageAssets p0.name (relJoin rel (pathStem p0.name)) 0 pages) := by
          rw [export_pdf, hpg]
        simp only [exceptMapM, hstep]
        rw [ih.1 nm h]
    · intro h
      cases hpg : p0.pages with
      | none =>
        rw [List.find?_cons_of_pos _ (by simp [hpg])] at h
        cases h
      | some pages =>
        rw [List.find?_cons_of_neg _ (by simp [hpg])] at h
        have hstep : export_pdf p0 (relJoin rel (pathStem p0.name))
            = Except.ok (exportPageAssets p0.name (relJoin rel (pathStem p0.name)) 0 pages) := by
          rw [export_pdf, hpg]
        simp only [exceptMapM, hstep, List.map_cons]
        rw [ih.2 h]
        simp [hpg]

/-- `processDir` raises for the first unopenable PDF of the directory and
otherwise returns the directory's exports followed by its plain images. -/
theorem processDir_spec (d : Dir) :
    (∀ nm, firstBadIn d = some nm →
        processDir d = Except.error ("cannot open document: " ++ nm))
    ∧ (firstBadIn d = none → processDir d = Except.ok (okDirAssets d)) := by
  constructor
  · intro nm h
    rw [processDir, (exportLoop_spec d.relPath d.pdfs).1 nm h]
  · intro h
    rw [firstBadIn] at h
    have hfind := Option.map_eq_none'.mp h
    rw [processDir, (exportLoop_spec d.relPath d.pdfs).2 hfind]
    rfl

/-- The directory walk: the first unopenable PDF (in processing order)
aborts the whole walk with its name; otherwise the walk returns each
directory's contribution in order. -/
theorem walkLoop_spec (ds : List Dir) :
    (∀ nm, (((ds.map Dir.pdfs).flatten.find? (fun p => p.pages.isNone)).map Pdf.name) = some nm →
        exceptMapM processDir ds = Except.error ("cannot open document: " ++ nm))
    ∧ ((ds.map Dir.pdfs).flatten.find? (fun p => p.pages.isNone) = none →
        exceptMapM processDir ds = Except.ok (ds.map okDirAssets)) := by
  induction ds with
  | nil => exact ⟨fun nm h => by simp at h, fun _ => rfl⟩
  | cons d rest ih =>
    have hsplit :
        ((d :: rest).map Dir.pdfs).flatten.find? (fun p => p.pages.isNone) =
          (d.pdfs.find? (fun p => p.pages.isNone)).or
            ((rest.map Dir.pdfs).flatten.find? (fun p => p.pages.isNone)) := by
      simp only [List.map_cons, List.flatten_cons]
      exact List.find?_append
    constructor
    · intro nm h
      rcases hd : d.pdfs.find? (fun p => p.pages.isNone) with _ | bad
      · rw [hsplit, hd, Option.none_or] at h
        have hdnone : firstBadIn d = none := by rw [firstBadIn, hd]; rfl
        simp only [exceptMapM, (processDir_spec d).2 hdnone]
        rw [ih.1 nm h]
      · rw [hsplit, hd, Option.or_some, Option.map_some'] at h
        have hnm := Option.some.inj h
        have hdsome : firstBadIn d = some bad.name := by rw [firstBadIn, hd]; rfl
        simp only [exceptMapM, (processDir_spec d).1 bad.name hdsome]
        rw [hnm]
    · intro h
      rcases hd : d.pdfs.find? (fun p => p.pages.isNone) with _ | bad
      · rw [hsplit, hd, Option.none_or] at h
        have hdnone : firstBadIn d = none := by rw [firstBadIn, hd]; rfl
        simp only [exceptMapM, (processDir_spec d).2 hdnone, List.map_cons]
        rw [ih.2 h]
      · rw [hsplit, hd, Option.or_some] at h
        cases h

/-- `collectAssets` aborts on the first unopenable PDF and otherwise
returns the concatenation of all directory contributions. -/
theorem collectAssets_spec (t : DirTree) :
    (∀ nm, firstBadPdf t = some nm →
        collectAssets t = Except.error ("cannot open document: " ++ nm))
    ∧ (firstBadPdf t = none →
        collectAssets t = Except.ok (((dirsOf t).map okDirAssets).flatten)) := by
  constructor
  · intro nm h
    rw [collectAssets, (walkLoop_spec (dirsOf t)).1 nm h]
  · intro h
    rw [firstBadPdf] at h
    have hfind := Option.map_eq_none'.mp h
    rw [collectAssets, (walkLoop_spec (dirsOf t)).2 hfind]

/-- C3.  Deterministic build order and dedup idempotence: a successful walk
yields exactly the root directory's assets followed by each child
directory's assets in enumeration order, and rebuilding from the unchanged
tree reproduces the same raw list and the same dedup winners. -/
theorem C3_deterministic_order_idempotent (t : DirTree) (raw : List Asset)
    (h : collectAssets t = Except.ok raw) :
    raw = okDirAssets t.rootDir ++ (t.children.map okDirAssets).flatten
    ∧ (∀ t2 : DirTree, t2 = t →
        collectAssets t2 = Except.ok raw
        ∧ buildAssets t2 = Except.ok (dedupByFilename raw)) := by
  constructor
  · rcases hbad : firstBadPdf t with _ | nm
    · have hok := (collectAssets_spec t).2 hbad
      rw [h] at hok
      have hraw := Except.ok.inj hok
      rw [hraw]
      simp [dirsOf]
    · rw [(collectAssets_spec t).1 nm hbad] at h
      cases h
  · intro t2 ht2
    subst ht2
    exact ⟨h, by rw [buildAssets, h]⟩

/-- C3 witness: building the concrete fixture tree twice produces the same
deduplicated asset list. -/
theorem C3_deterministic_order_idempotent_witness :
    buildAssets treeFix = Except.ok (dedupByFilename
      (okDirAssets treeFix.rootDir ++ (treeFix.children.map okDirAssets).flatten)) := by
  have hcoll : collectAssets treeFix
      = Except.ok (okDirAssets treeFix.rootDir ++ (treeFix.children.map okDirAssets).flatten) :=
    (collectAssets_spec treeFix).2 (by decide)
  have h := C3_deterministic_order_idempotent treeFix
    (okDirAssets treeFix.rootDir ++ (treeFix.children.map okDirAssets).flatten) hcoll
  exact (h.2 treeFix rfl).2

/-- The length of the page-asset list equals the page count. -/
theorem exportPageAssets_length (nm o : String) (j : Nat) (ps : List Page) :
    (exportPageAssets nm o j ps).length = ps.length := by
  induction ps generalizing j with
  | nil => rfl
  | cons pg rest ih => simp [exportPageAssets, ih]

/-- The page-asset list maps index `i` to the descriptor of page `j + i`. -/
theorem exportPageAssets_getElem (nm o : String) (j i : Nat) (ps : List Page) :
    (exportPageAssets nm o j ps)[i]? = (ps[i]?).map (fun pg => mkPdfPageAsset nm o (j + i) pg) := by
  induction ps generalizing i j with
  | nil => simp [exportPageAssets]
  | cons pg rest ih =>
    cases i with
    | zero => simp [exportPageAssets]
    | succ n =>
      simp only [exportPageAssets, List.getElem?_cons_succ]
      rw [ih]
      have hidx : j + 1 + n = j + (n + 1) := by omega
      rw [hidx]

/-- C4.  PDF extractor output shape: a readable PDF yields one descriptor
per page in document order; the page with zero-based index `i` becomes a
PNG named `<stem>_p<i>.png` in the subdirectory named after the stem, with
1-indexed `source`, a description embedding the pixmap dimensions and the
1-indexed page number, dimensions from the pixmap, `sizeKB` from the
written file, and PNG mime type. -/
theorem C4_pdf_export_shape (dirRel : String) (pdf : Pdf) (ps : List Page)
    (h : pdf.pages = some ps) :
    ∃ out : List Asset,
      export_pdf pdf (relJoin dirRel (pathStem pdf.name)) = Except.ok out
      ∧ out.length = ps.length
      ∧ ∀ i pg, ps[i]? = some pg →
          out[i]? = some
            ({ filename := relJoin (relJoin dirRel (pathStem pdf.name))
                 (pathStem pdf.name ++ "_p" ++ toString i ++ ".png")
               source := pdf.name ++ "#page=" ++ toString (i + 1)
               description := "PNG " ++ toString pg.width ++ "x" ++ toString pg.height
                 ++ "px exported from " ++ pdf.name ++ " page " ++ toString (i + 1)
               width := some pg.width
               height := some pg.height
               sizeKB := roundKB pg.pngBytes
               mimeType := "image/png" } : Asset) := by
  refine ⟨exportPageAssets pdf.name (relJoin dirRel (pathStem pdf.name)) 0 ps,
    by rw [export_pdf, h], exportPageAssets_length _ _ _ _, ?_⟩
  intro i pg hi
  rw [exportPageAssets_getElem, hi]
  simp [mkPdfPageAsset]

/-- C4 witness: the one-page fixture PDF produces exactly its page
descriptor. -/
theorem C4_pdf_export_shape_witness :
    ∃ out : List Asset,
      export_pdf flyerPdf (relJoin "" (pathStem flyerPdf.name)) = Except.ok out
      ∧ out.length = 1
      ∧ out[0]? = some
          ({ filename := "flyer/flyer_p0.png", source := "flyer.pdf#page=1"
             description := "PNG 2550x3300px exported from flyer.pdf page 1"
             width := some 2550, height := some 3300, sizeKB := 488
             mimeType := "image/png" } : Asset) := by
  obtain ⟨out, hok, hlen, hget⟩ :=
    C4_pdf_export_shape "" flyerPdf [{ width := 2550, height := 3300, pngBytes := 500000 }] rfl
  refine ⟨out, hok, hlen, ?_⟩
  rw [hget 0 { width := 2550, height := 3300, pngBytes := 500000 } (by decide)]
  decide

/-- C5.  Fail-fast on a bad PDF: when some discovered PDF cannot be opened,
the run returns the error of the first such PDF, naming it, and produces
neither output; when every PDF opens, the run succeeds; and having no bad
PDF is exactly the absence of an unopenable PDF in any scanned directory. -/
theorem C5_fail_fast_bad_pdf (env : String → Option String) (dotenv : Option (List String))
    (w : EnrichEnv) (rootPath brand : String) (t : DirTree) :
    (∀ nm, firstBadPdf t = some nm →
        runMain env dotenv w rootPath brand t
          = Except.error ("cannot open document: " ++ nm))
    ∧ (firstBadPdf t = none → ∃ res, runMain env dotenv w rootPath brand t = Except.ok res)
    ∧ (firstBadPdf t = none ↔ ∀ d ∈ dirsOf t, ∀ p ∈ d.pdfs, p.pages ≠ none) := by
  refine ⟨?_, ?_, ?_⟩
  · intro nm h
    rw [runMain, (collectAssets_spec t).1 nm h]
  · intro h
    have hok := (collectAssets_spec t).2 h
    exact ⟨_, by rw [runMain, hok]⟩
  · rw [firstBadPdf, Option.map_eq_none', List.find?_eq_none]
    constructor
    · intro h d hd p hp hnone
      have hm : p ∈ ((dirsOf t).map Dir.pdfs).flatten :=
        List.mem_flatten.mpr ⟨d.pdfs, List.mem_map_of_mem _ hd, hp⟩
      have := h p hm
      simp [hnone] at this
    · intro h p hp
      rcases List.mem_flatten.mp hp with ⟨l, hl, hpl⟩
      rcases List.mem_map.mp hl with ⟨d, hd, rfl⟩
      have hne := h d hd p hpl
      simp only [Bool.not_eq_true, Option.isNone_eq_false_iff, Option.isSome_iff_ne_none]
      intro hc
      exact hne hc

/-- C5 witness: the fixture tree with a broken PDF aborts with an error
naming that PDF. -/
theorem C5_fail_fast_bad_pdf_witness :
    runMain emptyEnv none worldFix "/tpl" "Template" treeBadFix
      = Except.error ("cannot open document: " ++ "broken.pdf") := by
  exact (C5_fail_fast_bad_pdf emptyEnv none worldFix "/tpl" "Template" treeBadFix).1
    "broken.pdf" (by decide)

/-- C6.  Degraded image enumeration: a regular file with a supported
extension whose dimensions cannot be decoded still yields exactly one
descriptor, in place, with both dimensions `none`, a generic type-only
description, and the root-relative filename. -/
theorem C6_degraded_image_descriptor (dirRel : String) (pdfs : List Pdf)
    (fs1 fs2 : List ImgFile) (f : ImgFile)
    (hfile : f.isFile = true)
    (hext : SUPPORTED_IMG.contains (pyLower (pathSuffix f.name)) = true)
    (hdims : f.dims = none) :
    catalog_images { relPath := dirRel, pdfs := pdfs, files := fs1 ++ f :: fs2 }
      = catalog_images { relPath := dirRel, pdfs := pdfs, files := fs1 }
        ++ mkImageAsset dirRel f
          :: catalog_images { relPath := dirRel, pdfs := pdfs, files := fs2 }
    ∧ (mkImageAsset dirRel f).width = none
    ∧ (mkImageAsset dirRel f).height = none
    ∧ (mkImageAsset dirRel f).description = pyLstripDot (pyUpper (pathSuffix f.name)) ++ " image"
    ∧ (mkImageAsset dirRel f).filename = relJoin dirRel f.name := by
  have hmem : pyLower (pathSuffix f.name) ∈ SUPPORTED_IMG := by
    simpa using hext
  refine ⟨?_, ?_, ?_, ?_, rfl⟩
  · simp [catalog_images, List.filterMap_append, List.filterMap_cons, hfile, hmem]
  · simp [mkImageAsset, hdims]
  · simp [mkImageAsset, hdims]
  · simp [mkImageAsset, hdims]

/-- C6 witness: the concrete corrupt image is still cataloged, with unknown
dimensions and a type-only description. -/
theorem C6_degraded_image_descriptor_witness :
    catalog_images { relPath := "sub", pdfs := [], files := [corruptImg] }
      = [mkImageAsset "sub" corruptImg]
    ∧ (mkImageAsset "sub" corruptImg).width = none
    ∧ (mkImageAsset "sub" corruptImg).description = "JPG image"
    ∧ (mkImageAsset "sub" corruptImg).filename = "sub/corrupt.jpg" := by
  have h := C6_degraded_image_descriptor "sub" [] [] [] corruptImg rfl (by decide) rfl
  refine ⟨?_, h.2.1, ?_, ?_⟩
  · simpa using h.1
  · rw [h.2.2.2.1]
    decide
  · rw [h.2.2.2.2]
    decide

/-- C7.  Run-level credential degradation: the environment is consulted
first (the `.env` file is not consulted when a truthy credential is already
present); when the resolved credential is not truthy, the run still
succeeds, the catalog keeps exactly the deduplicated auto-generated
descriptors, and the single run-level warning is emitted. -/
theorem C7_credential_degradation (env : String → Option String) (dotenv : Option (List String))
    (w : EnrichEnv) (rootPath brand : String) (t : DirTree) (raw : List Asset)
    (hcollect : collectAssets t = Except.ok raw)
    (hkey : pyTruthyStr (ensure_api_key env dotenv).1 = false) :
    runMain env dotenv w rootPath brand t
      = Except.ok
          { catalog := { brand := brand, root := rootPath, assets := dedupByFilename raw }
            promptText := promptLines rootPath brand (dedupByFilename raw)
            credWarning := some "[warn] GEMINI_API_KEY not found; skipping asset summaries." }
    ∧ (pyTruthyStr (pyOr (env "GEMINI_API_KEY") (env "API_KEY")) = true →
        ensure_api_key env dotenv = (pyOr (env "GEMINI_API_KEY") (env "API_KEY"), env)) := by
  constructor
  · rw [runMain, hcollect]
    simp [hkey]
  · intro h
    simp [ensure_api_key, h]

/-- C7 witness: with no credential in the environment and a `.env` file
holding only a comment, an unrelated key and a blank-valued credential, the
concrete run succeeds with untouched descriptors and the warning. -/
theorem C7_credential_degradation_witness :
    runMain emptyEnv (some ["# note", "OTHER=1", "API_KEY=   "]) worldFix "/tpl" "T" treeFix
      = Except.ok
          { catalog :=
              { brand := "T", root := "/tpl"
                assets := dedupByFilename
                  (okDirAssets treeFix.rootDir ++ (treeFix.children.map okDirAssets).flatten) }
            promptText := promptLines "/tpl" "T"
              (dedupByFilename
                (okDirAssets treeFix.rootDir ++ (treeFix.children.map okDirAssets).flatten))
            credWarning := some "[warn] GEMINI_API_KEY not found; skipping asset summaries." } := by
  exact (C7_credential_degradation emptyEnv (some ["# note", "OTHER=1", "API_KEY=   "])
    worldFix "/tpl" "T" treeFix
    (okDirAssets treeFix.rootDir ++ (treeFix.children.map okDirAssets).flatten)
    ((collectAssets_spec treeFix).2 (by decide)) (by decide)).1

/-- C8.  Structured-reply extraction: `extract_json` is exactly the JSON
parse of the fencing-stripped text (total, so an unparseable input yields
`none` rather than an exception); stripping removes a wrapping
three-backtick fence and an optional leading case-insensitive `json`
language tag, and only trims unfenced text. -/
theorem C8_extract_json_fencing (loads : String → Option Reply) :
    (∀ text, extract_json loads text = loads (stripFenceText text))
    ∧ stripFenceText "```json\n\x7b\"summary\": \"ok\"\x7d\n```" = "\x7b\"summary\": \"ok\"\x7d"
    ∧ stripFenceText "```\nhello world\n```" = "hello world"
    ∧ stripFenceText "  plain text  " = "plain text"
    ∧ stripFenceText "```JSON data```" = "data" := by
  exact ⟨fun _ => rfl, by decide, by decide, by decide, by decide⟩

/-- C9.  Narrative rendering completeness: the narrative output is the
fixed header followed by exactly one line per catalog asset in order; each
line is the base text (containing the filename) followed by the four
enrichment clauses, and an enrichment clause is empty exactly when its
field is not truthy, and is the labelled value otherwise. -/
theorem C9_narrative_rendering (rootPath brand : String) (assets : List Asset) :
    (promptLines rootPath brand assets).length
      = (headerLines rootPath brand).length + assets.length
    ∧ (∀ i a, assets[i]? = some a →
        (promptLines rootPath brand assets)[(headerLines rootPath brand).length + i]?
          = some (renderLine a))
    ∧ (∀ a : Asset,
        renderLine a
          = "- " ++ a.filename ++ " (source: " ++ a.source
              ++ dimClause a.width a.height ++ sizeClause a.sizeKB
              ++ ") :: " ++ a.description
              ++ optClause " | Recommended use: " a.recommendedUse
              ++ optClause " | Layout: " a.layoutHints
              ++ optClause " | Colors: " a.colorPalette
              ++ optClause " | Copy: " a.copyGuidance)
    ∧ (∀ label v, (pyTruthyStr v = false → optClause label v = "")
        ∧ (∀ s, v = some s → pyTruthyStr v = true → optClause label v = label ++ s)) := by
  refine ⟨?_, ?_, fun a => rfl, ?_⟩
  · simp [promptLines]
  · intro i a ha
    rw [promptLines, List.getElem?_append_right (by omega)]
    simp [ha]
  · intro label v
    constructor
    · intro hv
      cases v with
      | none => rfl
      | some s =>
        have hempty : s.data.isEmpty = true := by
          simpa [pyTruthyStr] using hv
        simp [optClause, hempty]
    · intro s hs ht
      subst hs
      have hempty : s.data.isEmpty = false := by
        simpa [pyTruthyStr] using ht
      simp [optClause, hempty]

/-- C9 witness: the concrete one-asset catalog renders the header plus one
line for the asset, and a missing enrichment field contributes an empty
clause. -/
theorem C9_narrative_rendering_witness :
    (promptLines "/tpl" "T" [axFirst]).length = (headerLines "/tpl" "T").length + 1
    ∧ (promptLines "/tpl" "T" [axFirst])[(headerLines "/tpl" "T").length + 0]?
        = some (renderLine axFirst)
    ∧ optClause " | Layout: " axFirst.layoutHints = "" := by
  have h := C9_narrative_rendering "/tpl" "T" [axFirst]
  exact ⟨h.1, h.2.1 0 axFirst rfl, (h.2.2.2 " | Layout: " axFirst.layoutHints).1 (by decide)⟩

/-- Appending the empty string is the identity. -/
theorem str_append_empty (s : String) : s ++ "" = s := by
  cases s with
  | mk l => exact congrArg String.mk (List.append_nil l)

/-- C10.  Size-zero edge case: a file of at most 512 bytes rounds to
`sizeKB = 0` (round-half-to-even sends the 512-byte tie to 0), the
descriptor records that zero, and because the renderer tests `sizeKB` for
truthiness its narrative line carries an empty size clause — the line is
exactly the base text without any size mention. -/
theorem C10_size_zero_clause_omitted (dirRel : String) (f : ImgFile)
    (hsize : f.bytes ≤ 512) :
    roundKB f.bytes = 0
    ∧ (mkImageAsset dirRel f).sizeKB = 0
    ∧ sizeClause (mkImageAsset dirRel f).sizeKB = ""
    ∧ renderLine (mkImageAsset dirRel f)
        = "- " ++ (mkImageAsset dirRel f).filename ++ " (source: "
            ++ (mkImageAsset dirRel f).source
            ++ dimClause (mkImageAsset dirRel f).width (mkImageAsset dirRel f).height
            ++ ") :: " ++ (mkImageAsset dirRel f).description
            ++ optClause " | Recommended use: " (mkImageAsset dirRel f).recommendedUse
            ++ optClause " | Layout: " (mkImageAsset dirRel f).layoutHints
            ++ optClause " | Colors: " (mkImageAsset dirRel f).colorPalette
            ++ optClause " | Copy: " (mkImageAsset dirRel f).copyGuidance := by
  have h0 : roundKB f.bytes = 0 := by
    rw [roundKB]
    have hq : f.bytes / 1024 = 0 := Nat.div_eq_of_lt (by omega)
    have hr : f.bytes % 1024 = f.bytes := Nat.mod_eq_of_lt (by omega)
    simp only [hq, hr]
    split_ifs <;> omega
  have hsz : (mkImageAsset dirRel f).sizeKB = 0 := h0
  refine ⟨h0, hsz, ?_, ?_⟩
  · rw [hsz]
    rfl
  · rw [renderLine, hsz]
    rw [show sizeClause 0 = "" from rfl]
    rw [str_append_empty]

/-- C10 witness: a 512-byte file records `sizeKB = 0` and its narrative
line gets an empty size clause. -/
theorem C10_size_zero_clause_omitted_witness :
    roundKB tinyImg.bytes = 0
    ∧ (mkImageAsset "" tinyImg).sizeKB = 0
    ∧ sizeClause (mkImageAsset "" tinyImg).sizeKB = "" := by
  have h := C10_size_zero_clause_omitted "" tinyImg (by decide)
  exact ⟨h.1, h.2.1, h.2.2.1⟩
